import Mathlib

/-!
Verification of the Antigravity-Manager request-handling pipeline

Shallow embedding of the request pipeline of `src-tauri/src/proxy/server.rs`
and `src-tauri/src/proxy/client.rs`: the retry/failure classifier, the two
phases of model-name resolution, the Anthropic and OpenAI stream chunk
transformers, the inline-data post-processor, and the Anthropic streaming
orchestrator loop (with its peek-before-commit first read).

Rust `HashMap`s are modelled as association lists (first binding wins),
`serde_json::Value` as an inductive `Json` with maps as ordered field lists,
and panicking `serde_json` index operations as `Option`-valued functions
(`none` = panic). Nondeterministic fields of emitted chunks (`created`
timestamps, fresh UUID texts) are abstracted: timestamps are omitted and
per-attempt fresh UUIDs are represented by the attempt counter, which
preserves exactly the "fresh per attempt" structure the claims mention.
-/

set_option autoImplicit false

namespace AntigravityProxy

/-! ## Character-level substring matching (model of Rust `str::contains`) -/

/-- True when `p` is a prefix of `s` (char lists). -/
def startsWithChars : List Char → List Char → Bool
  | [], _ => true
  | _ :: _, [] => false
  | a :: as, b :: bs => a == b && startsWithChars as bs

/-- True when `p` occurs contiguously inside `s`. -/
def infixOfChars (p : List Char) : List Char → Bool
  | [] => p.isEmpty
  | c :: rest => startsWithChars p (c :: rest) || infixOfChars p rest

/-- Model of Rust `haystack.contains(needle)` (substring containment). -/
def strContains (haystack needle : String) : Bool :=
  infixOfChars needle.data haystack.data

/-- Model of Rust `str::to_lowercase` by per-char lowercasing (the model
names this code lowercases are ASCII, where the two agree). -/
def strToLower (s : String) : String :=
  String.mk (s.data.map Char.toLower)

/-- Model of Rust `str::starts_with`. -/
def strStartsWith (s p : String) : Bool :=
  startsWithChars p.data s.data

theorem startsWithChars_refl (p : List Char) : startsWithChars p p = true := by
  induction p with
  | nil => rfl
  | cons a as ih => simp [startsWithChars, ih]

theorem infixOfChars_append_self (p l : List Char) :
    infixOfChars p (l ++ p) = true := by
  induction l with
  | nil =>
    cases p with
    | nil => rfl
    | cons c cs => simp [infixOfChars, startsWithChars_refl]
  | cons c cs ih => simp [infixOfChars, ih]

/-- A string always contains any of its suffixes: used for "the 500 response
preserves the upstream message". -/
theorem strContains_append_right (pre msg : String) :
    strContains (pre ++ msg) msg = true := by
  unfold strContains
  rw [String.data_append]
  exact infixOfChars_append_self _ _

/-! ## The retry/failure classifier (`check_retry_error`, server.rs:355-385) -/

/-- Result of one processing attempt, as the handler sees it
(`RequestResult` in server.rs; the `Response` payload of the error arm is
modelled by its HTTP status and its JSON `error.message` field). -/
inductive RequestResultM where
  | retryR (reason : String)
  | errorR (status : Nat) (message : String)
  deriving DecidableEq, Repr

/-- First substring test of `check_retry_error` (server.rs:358-359):
account-level 404/403 conditions. -/
def accountRetryCond (error_msg : String) : Bool :=
  strContains error_msg "404" || strContains error_msg "NOT_FOUND" ||
  strContains error_msg "403" || strContains error_msg "PERMISSION_DENIED"

/-- Second substring test of `check_retry_error` (server.rs:364-371):
quota / transient conditions. -/
def quotaRetryCond (error_msg : String) : Bool :=
  strContains error_msg "429" ||
  strContains error_msg "RESOURCE_EXHAUSTED" ||
  strContains error_msg "QUOTA_EXHAUSTED" ||
  strContains error_msg "The request has been rate limited" ||
  strContains error_msg "closed connection" ||
  strContains error_msg "error sending request" ||
  strContains error_msg "operation timed out" ||
  strContains error_msg "RATE_LIMIT_EXCEEDED"

/-- Model of `check_retry_error` (server.rs:355-385), translated clause for clause:
two groups of substring tests produce `Retry` (with different reason
strings), everything else produces the fatal 500 response whose message
wraps the upstream error. -/
def check_retry_error (error_msg : String) : RequestResultM :=
  if accountRetryCond error_msg then
    .retryR ("账号不支持此模型或无权限，跳过: " ++ error_msg)
  else if quotaRetryCond error_msg then
    .retryR error_msg
  else
    .errorR 500 ("Antigravity API 错误: " ++ error_msg)

/-- The twelve retry substrings as the spec classifier table lists them. -/
def retrySubstringsSpec : List String :=
  ["404", "NOT_FOUND", "403", "PERMISSION_DENIED",
   "429", "RESOURCE_EXHAUSTED", "QUOTA_EXHAUSTED", "RATE_LIMIT_EXCEEDED",
   "The request has been rate limited",
   "closed connection", "error sending request", "operation timed out"]

/-- Spec-side predicate: the message contains at least one retry substring. -/
def retryPerSpec (msg : String) : Bool :=
  retrySubstringsSpec.any (fun pat => strContains msg pat)

/-- The error message the Anthropic stream transformer produces for a chunk
with no content but a STOP / MAX_TOKENS finish reason (client.rs:305);
`reason` is the already-mapped finish reason, `"stop"` or `"length"`. -/
def emptyFinishMsg (reason : String) : String :=
  "Gemini 返回空内容 (" ++ reason ++ ")"

/-! ## Model-name resolution

Phase 1 on the dispatch path (`client.rs:72-77`) is an **exact** `HashMap`
lookup.  The separate resolution performed in the handler
(`server.rs:524-555`) is computed only for the log line; its phase 1 walks
the mapping with substring matching and its phase 2 has extra alias rows.
Both are embedded so they can be compared. `HashMap` is modelled as an
association list where the first binding for a key wins; the iteration
order of the substring walk in `server.rs` is the list order. -/

/-- Exact-key lookup in an association list (model of `HashMap::get`). -/
def lookupExact : List (String × String) → String → Option String
  | [], _ => none
  | (k, v) :: rest, key => if k = key then some v else lookupExact rest key

/-- Phase-1 resolution on the dispatch path (client.rs:72-77):
`model_mapping.get(&model_name)` — exact key match, else the name itself. -/
def clientInitialMapped (mapping : List (String × String)) (modelName : String) : String :=
  match lookupExact mapping modelName with
  | some v => v
  | none => modelName

/-- Phase-1 resolution used for the handler log line (server.rs:527-536):
first mapping entry whose key is a substring of the requested model wins. -/
def serverInitialMapped (mapping : List (String × String)) (modelName : String) : String :=
  match mapping.find? (fun kv => strContains modelName kv.1) with
  | some kv => kv.2
  | none => modelName

/-- Phase-2 aliasing on the dispatch path (client.rs:79-95).  Note: no
`sonnet`, `haiku` or `claude` rows here. -/
def clientUpstreamModel (initialMapped : String) : String :=
  let lower := strToLower initialMapped
  if lower = "gemini-3-flash" then "gemini-3-flash-preview"
  else if lower = "gemini-3-pro-high" then "gemini-3-pro-preview"
  else if strStartsWith lower "gemini-" then initialMapped
  else if strContains lower "thinking" then initialMapped
  else if strContains lower "opus" then "gemini-3-pro-preview"
  else initialMapped

/-- Phase-2 aliasing used for the handler log line (server.rs:538-554). -/
def serverMappedModel (initialM : String) : String :=
  let lower := strToLower initialM
  if strContains lower "sonnet" || strContains lower "thinking" then "gemini-3-pro-preview"
  else if strContains lower "haiku" then "gemini-2.0-flash-exp"
  else if strContains lower "opus" then "gemini-3-pro-preview"
  else if strContains lower "claude" then "gemini-2.5-flash-thinking"
  else if lower = "gemini-3-pro-high" || lower = "gemini-3-pro-low" then "gemini-3-pro-preview"
  else if lower = "gemini-3-flash" then "gemini-3-flash-preview"
  else initialM

/-- The `model` field of the upstream request body dispatched by
`stream_generate_anthropic` (client.rs:101-119): phase 2 applied to the
phase-1 result. -/
def anthropicDispatchModel (mapping : List (String × String)) (modelName : String) : String :=
  clientUpstreamModel (clientInitialMapped mapping modelName)

/-- The model name shown in the handler log line (server.rs:524-555). -/
def serverLogModel (mapping : List (String × String)) (modelName : String) : String :=
  serverMappedModel (serverInitialMapped mapping modelName)

/-! ## JSON values

`serde_json::Value` with objects as ordered association lists.  The default
`serde_json` map is a `BTreeMap`; only its lookup/replace behaviour matters
to the claims, which an association list models (first binding wins,
replacement keeps position). -/

inductive Json where
  | null
  | bool (b : Bool)
  | num (n : Int)
  | str (s : String)
  | arr (elems : List Json)
  | obj (fields : List (String × Json))

namespace Json

/-- First binding for a key in the field list of an object. -/
def lookupField : List (String × Json) → String → Option Json
  | [], _ => none
  | (k, v) :: rest, key => if k = key then some v else lookupField rest key

/-- Replace the value of the first binding of `key` (no insertion):
used to write back a mutated sub-value. -/
def setField : List (String × Json) → String → Json → List (String × Json)
  | [], _, _ => []
  | (k, v) :: rest, key, val =>
    if k = key then (k, val) :: rest else (k, v) :: setField rest key val

/-- Model of `Value::get(&str)`: `Some` only on objects. -/
def get : Json → String → Option Json
  | obj fields, key => lookupField fields key
  | _, _ => none

/-- Model of `Value::get(usize)`: `Some` only on arrays, in range. -/
def getIdx : Json → Nat → Option Json
  | arr elems, i => elems.get? i
  | _, _ => none

/-- Model of `Value::as_str`. -/
def asStr : Json → Option String
  | str s => some s
  | _ => none

/-- Model of `Value::as_bool`. -/
def asBool : Json → Option Bool
  | bool b => some b
  | _ => none

end Json

/-! ## Upstream event field extraction (client.rs:216-283 and 497-525)

Both stream transformers parse each SSE `data:` payload to JSON and read
the same fields of `candidates[0]` (falling back to the
`response.candidates` wrapping). -/

/-- The `candidates` node: top-level, else under `response`, else `Null`
(client.rs:216-222). -/
def getCandidates (j : Json) : Json :=
  match j.get "candidates" with
  | some c => c
  | none =>
    match j.get "response" with
    | some r => (r.get "candidates").getD .null
    | none => .null

/-- First part of the content of the first candidate. -/
def chunkPart0 (j : Json) : Option Json :=
  ((((getCandidates j).getIdx 0).bind (·.get "content")).bind (·.get "parts")).bind (·.getIdx 0)

/-- The `text` of the first part, defaulting to `""` (client.rs:224-230). -/
def chunkText (j : Json) : String :=
  (((chunkPart0 j).bind (·.get "text")).bind Json.asStr).getD ""

/-- The `thought` flag of the first part, defaulting to `false` (client.rs:282). -/
def chunkThought (j : Json) : Bool :=
  (((chunkPart0 j).bind (·.get "thought")).bind Json.asBool).getD false

/-- The `thoughtSignature` of the first part (client.rs:283). -/
def chunkSig (j : Json) : Option String :=
  ((chunkPart0 j).bind (·.get "thoughtSignature")).bind Json.asStr

/-- Raw `candidates[0].finishReason` string (client.rs:265-267). -/
def geminiFinish (j : Json) : Option String :=
  ((((getCandidates j).getIdx 0).bind (·.get "finishReason")).bind Json.asStr)

/-- Finish-reason mapping of the Anthropic-path transformer
(client.rs:269-274): STOP, MAX_TOKENS, SAFETY only. -/
def anthropicMappedFinish (j : Json) : Option String :=
  match geminiFinish j with
  | some "STOP" => some "stop"
  | some "MAX_TOKENS" => some "length"
  | some "SAFETY" => some "content_filter"
  | _ => none

/-- Finish-reason mapping of the OpenAI-path transformer
(client.rs:519-525): also maps RECITATION. -/
def openaiMappedFinish (j : Json) : Option String :=
  match geminiFinish j with
  | some "STOP" => some "stop"
  | some "MAX_TOKENS" => some "length"
  | some "SAFETY" => some "content_filter"
  | some "RECITATION" => some "content_filter"
  | _ => none

/-- The `responseId` used as the chunk id on the Anthropic path
(client.rs:316). -/
def chunkRespId (j : Json) : String :=
  ((j.get "responseId").bind Json.asStr).getD "chatcmpl-stream"

/-! ## The Anthropic-path stream chunk transformer (client.rs:198-335)

Per parsed upstream event, the `flat_map` body yields zero or one items:
nothing (empty chunk dropped), an error item (empty content with a
STOP/MAX_TOKENS finish reason), or one OpenAI-style intermediate chunk.
The emitted chunk is modelled by the structure below; its `created`
timestamp is nondeterministic and omitted.  The side effect of storing a
`thoughtSignature` into the signature cache does not alter the emitted
items and is modelled separately where a claim needs it. -/

structure AnthropicPathChunk where
  id : String
  model : String
  content : String
  thought : Bool
  thoughtSignature : Option String
  finish_reason : Option String
  deriving DecidableEq, Repr

/-- One step of the Anthropic-path transformer on an already-parsed event
(client.rs:296-331): the empty-chunk policy followed by chunk emission. -/
def anthropicTransformChunk (modelName : String) (j : Json) : List (Except String AnthropicPathChunk) :=
  let text := chunkText j
  let is_thought := chunkThought j
  let sig := chunkSig j
  let finish := anthropicMappedFinish j
  let has_content : Bool := !(text = "") || is_thought || sig.isSome
  if has_content then
    [Except.ok ⟨chunkRespId j, modelName, text, is_thought, sig, finish⟩]
  else
    match finish with
    | some reason =>
      if reason = "length" || reason = "stop" then
        [Except.error (emptyFinishMsg reason)]
      else
        [Except.ok ⟨chunkRespId j, modelName, text, is_thought, sig, finish⟩]
    | none => []

/-! ## The OpenAI-path stream chunk transformer (client.rs:482-550)

Each parsed upstream event is mapped to exactly one
`chat.completion.chunk`; there is no empty-chunk policy and no failure
injection on this path. -/

structure OpenAIStreamChunk where
  id : String
  model : String
  content : String
  finish_reason : Option String
  deriving DecidableEq, Repr

/-- The OpenAI-path per-event map (client.rs:484-550) on a parsed event:
always one chunk, `delta.content` is the text of the first part (default `""`). -/
def openaiTransformChunk (modelName : String) (j : Json) : OpenAIStreamChunk :=
  ⟨"chatcmpl-stream", modelName, chunkText j, openaiMappedFinish j⟩

/-! ## The inline-data post-processor (`process_inline_data`, server.rs:433-487)

the mutable index operators of `serde_json` can panic (`Map::index_mut` on a
missing key) or insert (the `index_or_insert` of `Value` turns `Null` into an
object and inserts `Null` for a missing key on objects); panics are
modelled as `none`. -/

/-- Markdown image replacement text (server.rs:462-465). -/
def imageMarkdown (mimeType data : String) : String :=
  "\n\n![Generated Image](data:" ++ mimeType ++ ";base64," ++ data ++ ")\n\n"

/-- Per-part rewrite (server.rs:451-474): a part carrying `inlineData`
becomes a `text` part with the markdown image; other parts are kept. -/
def replacePart (part : Json) : Json :=
  match part.get "inlineData" with
  | some inline =>
    let mime := ((inline.get "mimeType").bind Json.asStr).getD "image/jpeg"
    let data := ((inline.get "data").bind Json.asStr).getD ""
    Json.obj [("text", Json.str (imageMarkdown mime data))]
  | none => part

/-- Per-candidate mutation (server.rs:446-480): `candidate["content"]`
uses `index_or_insert` (object: lookup or insert `Null`; `Null`: becomes
an object; anything else panics); when that value is an object,
`content["parts"]` uses the panicking `Map` indexer; when `parts` is an
array its parts are rewritten. -/
def processCandidate (c : Json) : Option Json :=
  match c with
  | .obj fields =>
    match Json.lookupField fields "content" with
    | some v =>
      match v with
      | .obj cf =>
        match Json.lookupField cf "parts" with
        | some (.arr parts) =>
          some (.obj (Json.setField fields "content"
            (.obj (Json.setField cf "parts" (.arr (parts.map replacePart))))))
        | some _ => some c
        | none => none
      | _ => some c
    | none => some (.obj (fields ++ [("content", Json.null)]))
  | .null => some (.obj [("content", Json.null)])
  | _ => none

/-- An `Option`-valued map over a list, stopping at the first `none`. -/
def mapOpt {α β : Type} (f : α → Option β) : List α → Option (List β)
  | [] => some []
  | a :: as =>
    match f a with
    | none => none
    | some b => (mapOpt f as).map (b :: ·)

/-- Process the located `candidates` node: only arrays are touched
(server.rs:444-445). -/
def processCandidatesValue (v : Json) : Option Json :=
  match v with
  | .arr cs => (mapOpt processCandidate cs).map .arr
  | _ => some v

/-- Model of `process_inline_data` (server.rs:433-487): locate `candidates` at the
top level, else under `response`; rewrite each candidate; everything else
is returned unchanged. -/
def process_inline_data (resp : Json) : Option Json :=
  match resp with
  | .obj fields =>
    match Json.lookupField fields "candidates" with
    | some v =>
      (processCandidatesValue v).map (fun v2 => .obj (Json.setField fields "candidates" v2))
    | none =>
      match Json.lookupField fields "response" with
      | some (.obj rf) =>
        match Json.lookupField rf "candidates" with
        | some v =>
          (processCandidatesValue v).map (fun v2 =>
            .obj (Json.setField fields "response" (.obj (Json.setField rf "candidates" v2))))
        | none => some resp
      | some _ => some resp
      | none => some resp
  | _ => some resp

/-! ## Tokens and per-attempt dispatch metadata -/

/-- Model of `ProxyToken` (declared in `src-tauri/src/proxy/token_manager.rs`,
fields as used by server.rs: `email`, `access_token`, `project_id`,
`session_id`). -/
structure ProxyToken where
  email : String
  access_token : String
  project_id : Option String
  session_id : String
  deriving DecidableEq, Repr

/-- Modelled from the spec: the token provider (`TokenManager`, component
C2, not under `src/`) is round-robin over the account pool — `next()`
returns the pool entry at a monotonically incrementing cursor, `None` on an
empty pool; each `ProxyToken` carries the per-account persistent
`session_id`.  The cursor is the number of acquisitions already made. -/
def roundRobinProvider (pool : List ProxyToken) (cursor : Nat) : Option ProxyToken :=
  match pool with
  | [] => none
  | _ => pool.get? (cursor % pool.length)

/-- The identifying fields of one dispatched upstream request body
(client.rs:101-119): `requestId` is fresh per attempt (`Uuid::new_v4()`,
modelled by the cursor value of the attempt, which preserves per-attempt
freshness), `sessionId` is the `session_id` passed by the handler
(server.rs:621: `&token.session_id`). -/
structure UpstreamBodyMeta where
  project : String
  requestId : Nat
  model : String
  sessionId : String
  deriving DecidableEq, Repr

/-- The body metadata dispatched on attempt `i` of one Anthropic client
request: token from the provider at cursor `i`, `project_id` required
(server.rs:606-612), model resolved on the dispatch path. -/
def anthropicAttemptBody (mapping : List (String × String)) (modelName : String)
    (pool : List ProxyToken) (i : Nat) : Option UpstreamBodyMeta :=
  match roundRobinProvider pool i with
  | none => none
  | some t =>
    match t.project_id with
    | none => none
    | some pid => some ⟨pid, i, anthropicDispatchModel mapping modelName, t.session_id⟩

/-! ## The Anthropic streaming orchestrator loop (server.rs:572-760)

One client request on `POST /v1/messages` with `stream:true`.  Each loop
iteration: acquire a token (503 if none), require `project_id` (500, no
retry), dispatch `stream_generate_anthropic` and *peek* the first item of
the resulting stream before committing any response.  The upstream
interaction of attempt `i` is an oracle `dispatch i`: either an HTTP-level
error (non-2xx / transport, client.rs:142-153) or a stream of transformed
items (each `Except.ok` chunk string or `Except.error` message).  On a
successful peek the handler returns the 200 SSE response built from the
peeked chunk re-prepended to the remaining stream (server.rs:657-737);
recursion is fuel-bounded with `none` meaning no response within `fuel`
iterations.  The second component counts tokens acquired. -/

inductive DispatchResult where
  | httpErr (msg : String)
  | streamOk (events : List (Except String String))

inductive HandlerResponse where
  | success200 (delivered : List (Except String String))
  | rate429 (message : String)
  | error500 (message : String)
  | noAccounts503

/-- The retry-exhaustion 429 body message (server.rs:643, 749, 857). -/
def maxRetriesMsg (reason : String) : String :=
  "Max retries exceeded. Last error: " ++ reason

def anthropicStreamLoop (pool : List ProxyToken) (dispatch : Nat → DispatchResult) :
    Nat → Nat → Option HandlerResponse × Nat
  | _, 0 => (none, 0)
  | attempts, fuel + 1 =>
    match roundRobinProvider pool attempts with
    | none => (some .noAccounts503, 0)
    | some tok =>
      match tok.project_id with
      | none => (some (.error500 "没有 project_id"), 1)
      | some _ =>
        match dispatch attempts with
        | .httpErr msg =>
          match check_retry_error msg with
          | .retryR reason =>
            if pool.length.max 1 ≤ attempts + 1 then (some (.rate429 (maxRetriesMsg reason)), 1)
            else ((anthropicStreamLoop pool dispatch (attempts + 1) fuel).1,
                  (anthropicStreamLoop pool dispatch (attempts + 1) fuel).2 + 1)
          | .errorR _ m => (some (.error500 m), 1)
        | .streamOk events =>
          match events with
          | [] =>
            ((anthropicStreamLoop pool dispatch (attempts + 1) fuel).1,
             (anthropicStreamLoop pool dispatch (attempts + 1) fuel).2 + 1)
          | Except.error msg :: _ =>
            match check_retry_error msg with
            | .retryR reason =>
              if pool.length.max 1 ≤ attempts + 1 then (some (.rate429 (maxRetriesMsg reason)), 1)
              else ((anthropicStreamLoop pool dispatch (attempts + 1) fuel).1,
                    (anthropicStreamLoop pool dispatch (attempts + 1) fuel).2 + 1)
            | .errorR _ m => (some (.error500 m), 1)
          | Except.ok _ :: _ => (some (.success200 events), 1)

/-! ## The OpenAI stream handler (server.rs:272-306)

`handle_stream_request`: once `stream_generate` returns `Ok` (upstream
answered 2xx), the handler immediately commits the 200 SSE response that
forwards every transformed event; a pre-stream error goes through the
classifier.  There is no peek of the first event on this path. -/

inductive OpenAIStreamOutcome where
  | success200 (chunks : List OpenAIStreamChunk)
  | retry (reason : String)
  | error500 (message : String)
  deriving DecidableEq

/-- Model of `handle_stream_request` on the outcome of the upstream call, with the
per-event transformation of `stream_generate` applied to the parsed events
of the committed stream. -/
def handleStreamRequest (modelName : String) (d : Except String (List Json)) :
    OpenAIStreamOutcome :=
  match d with
  | .ok events => .success200 (events.map (openaiTransformChunk modelName))
  | .error e =>
    match check_retry_error e with
    | .retryR r => .retry r
    | .errorR _ m => .error500 m

/-! ## Theorems -/

/-- The classifier retries exactly when one of the twelve spec substrings
occurs in the message. -/
theorem retryPerSpec_iff (msg : String) :
    retryPerSpec msg = true ↔ (accountRetryCond msg = true ∨ quotaRetryCond msg = true) := by
  simp [retryPerSpec, retrySubstringsSpec, accountRetryCond, quotaRetryCond,
    List.any_cons, List.any_nil, Bool.or_eq_true]
  tauto

/-- C7: the retry/failure classifier is a pure function of the error
message: it returns Retry exactly when the message contains one of the
twelve listed substrings, and on every other message it returns the fatal
HTTP 500 response whose message preserves the upstream message (as a
substring of the wrapped text). -/
theorem check_retry_error_matches_spec (msg : String) :
    ((∃ r, check_retry_error msg = RequestResultM.retryR r) ↔ retryPerSpec msg = true)
    ∧ (retryPerSpec msg = false →
        check_retry_error msg = RequestResultM.errorR 500 ("Antigravity API 错误: " ++ msg)
        ∧ strContains ("Antigravity API 错误: " ++ msg) msg = true) := by
  constructor
  · constructor
    · rintro ⟨r, hr⟩
      unfold check_retry_error at hr
      split_ifs at hr with h1 h2
      · exact (retryPerSpec_iff msg).mpr (Or.inl h1)
      · exact (retryPerSpec_iff msg).mpr (Or.inr h2)
    · intro hs
      rcases (retryPerSpec_iff msg).mp hs with h1 | h2
      · exact ⟨"账号不支持此模型或无权限，跳过: " ++ msg, by simp [check_retry_error, h1]⟩
      · by_cases h1 : accountRetryCond msg = true
        · exact ⟨"账号不支持此模型或无权限，跳过: " ++ msg, by simp [check_retry_error, h1]⟩
        · exact ⟨msg, by simp [check_retry_error, h1, h2]⟩
  · intro hs
    have h1 : ¬ accountRetryCond msg = true := by
      intro h
      rw [(retryPerSpec_iff msg).mpr (Or.inl h)] at hs
      simp at hs
    have h2 : ¬ quotaRetryCond msg = true := by
      intro h
      rw [(retryPerSpec_iff msg).mpr (Or.inr h)] at hs
      simp at hs
    exact ⟨by simp [check_retry_error, h1, h2], strContains_append_right _ _⟩

/-- Witness for C7 at a concrete fatal message. -/
theorem check_retry_error_matches_spec_witness :
    retryPerSpec "boom" = false
    ∧ check_retry_error "boom" = RequestResultM.errorR 500 ("Antigravity API 错误: " ++ "boom")
    ∧ strContains ("Antigravity API 错误: " ++ "boom") "boom" = true := by
  refine ⟨by decide, ?_⟩
  exact (check_retry_error_matches_spec "boom").2 (by decide)

/-- C2: the error produced for an upstream chunk with no content but a
STOP or MAX_TOKENS finish reason — the message built at client.rs:305 —
matches none of the substrings of `check_retry_error`, so the classifier
returns the fatal 500 response, not Retry: the orchestrator surfaces a
500 instead of rotating to the next account, contradicting the comments in the code itself (client.rs:303-304, server.rs:630) and the spec. -/
theorem empty_finish_classified_fatal :
    check_retry_error (emptyFinishMsg "length")
      = RequestResultM.errorR 500 ("Antigravity API 错误: " ++ emptyFinishMsg "length")
    ∧ check_retry_error (emptyFinishMsg "stop")
      = RequestResultM.errorR 500 ("Antigravity API 错误: " ++ emptyFinishMsg "stop")
    ∧ (∀ r, check_retry_error (emptyFinishMsg "length") ≠ RequestResultM.retryR r) := by
  refine ⟨by decide, by decide, ?_⟩
  intro r h
  rw [show check_retry_error (emptyFinishMsg "length")
      = RequestResultM.errorR 500 ("Antigravity API 错误: " ++ emptyFinishMsg "length") from by decide] at h
  exact RequestResultM.noConfusion h

/-- C4: phase-1 resolution on the dispatch path is an exact `HashMap::get`,
not the substring walk the spec (and the log-only handler resolution,
whose comment claims to be "in sync with client.rs") describe: with mapping
key `claude-3-5-sonnet`, the request model `claude-3-5-sonnet-20240620`
does NOT resolve to the value of the entry in the dispatched body — the
requested name is kept — while the log-display resolution does resolve it. -/
theorem anthropic_phase1_exact_not_substring :
    clientInitialMapped [("claude-3-5-sonnet", "internal-sonnet")] "claude-3-5-sonnet-20240620"
      = "claude-3-5-sonnet-20240620"
    ∧ anthropicDispatchModel [("claude-3-5-sonnet", "internal-sonnet")] "claude-3-5-sonnet-20240620"
      = "claude-3-5-sonnet-20240620"
    ∧ serverInitialMapped [("claude-3-5-sonnet", "internal-sonnet")] "claude-3-5-sonnet-20240620"
      = "internal-sonnet"
    ∧ ("claude-3-5-sonnet-20240620" : String) ≠ "internal-sonnet" := by
  refine ⟨rfl, by decide, rfl, by decide⟩

/-- C5 counterexample: a phase-1 result containing `sonnet` is passed
through unchanged by the dispatch-path phase 2 (client.rs:82-95 has no
`sonnet` row), not rewritten to `gemini-3-pro-preview`; that rewrite only
happens in the log-display handler resolution (server.rs:540-541). -/
theorem sonnet_dispatch_passthrough :
    anthropicDispatchModel [] "internal-sonnet" = "internal-sonnet"
    ∧ ("internal-sonnet" : String) ≠ "gemini-3-pro-preview"
    ∧ serverLogModel [] "internal-sonnet" = "gemini-3-pro-preview" := by
  refine ⟨by decide, by decide, by decide⟩

/-- C5 amended: on the Anthropic dispatch path, a phase-1 result whose
lowercase form contains `sonnet`, `haiku` or `claude` is dispatched
unchanged (provided none of the rows that do exist fire: not exactly
`gemini-3-flash` / `gemini-3-pro-high`, not starting with `gemini-`, not
containing `thinking` or `opus`); the sonnet/haiku/claude → gemini-*
aliases of the claim apply only to the log-display model name computed in
the handler, in its first-match order. -/
theorem anthropic_phase2_passthrough_amended (s : String)
    (h1 : (strToLower s) ≠ "gemini-3-flash")
    (h2 : (strToLower s) ≠ "gemini-3-pro-high")
    (h3 : strStartsWith (strToLower s) "gemini-" = false)
    (h4 : strContains (strToLower s) "thinking" = false)
    (h5 : strContains (strToLower s) "opus" = false) :
    clientUpstreamModel s = s
    ∧ (strContains (strToLower s) "sonnet" = true →
        serverMappedModel s = "gemini-3-pro-preview")
    ∧ (strContains (strToLower s) "sonnet" = false → strContains (strToLower s) "haiku" = true →
        serverMappedModel s = "gemini-2.0-flash-exp")
    ∧ (strContains (strToLower s) "sonnet" = false → strContains (strToLower s) "haiku" = false →
        strContains (strToLower s) "claude" = true →
        serverMappedModel s = "gemini-2.5-flash-thinking") := by
  refine ⟨?_, ?_, ?_, ?_⟩
  · simp [clientUpstreamModel, h1, h2, h3, h4, h5]
  · intro hs
    simp [serverMappedModel, hs]
  · intro hs hh
    simp [serverMappedModel, hs, hh, h4]
  · intro hs hh hc
    simp [serverMappedModel, hs, hh, hc, h4, h5]

/-- Witness for the amended C5 at `internal-sonnet`. -/
theorem anthropic_phase2_passthrough_amended_witness :
    clientUpstreamModel "internal-sonnet" = "internal-sonnet"
    ∧ serverMappedModel "internal-sonnet" = "gemini-3-pro-preview" := by
  have h := anthropic_phase2_passthrough_amended "internal-sonnet"
    (by decide) (by decide) (by decide) (by decide) (by decide)
  exact ⟨h.1, h.2.1 (by decide)⟩

/-! ### Session id across retries (C9) -/

/-- A concrete pool member used in several concrete evaluations. -/
def tokA : ProxyToken := ⟨"a@example.com", "tokenA", some "projectA", "sessionA"⟩

/-- A second pool member with a different persistent session id. -/
def tokB : ProxyToken := ⟨"b@example.com", "tokenB", some "projectB", "sessionB"⟩

/-- C9 counterexample: with a pool of two accounts whose persistent session
ids differ, the bodies dispatched on attempt 0 and attempt 1 of one client
request carry different `sessionId` values — not "one and the same
sessionId" as the claim states. -/
theorem session_id_changes_on_rotation :
    ((anthropicAttemptBody [] "claude-sonnet-4-5" [tokA, tokB] 0).map (fun b => b.sessionId)
      = some "sessionA")
    ∧ ((anthropicAttemptBody [] "claude-sonnet-4-5" [tokA, tokB] 1).map (fun b => b.sessionId)
      = some "sessionB")
    ∧ (some "sessionA" ≠ (some "sessionB" : Option String)) := by
  refine ⟨by decide, by decide, by decide⟩

/-- C9 amended: the `sessionId` of the body dispatched on attempt `i` is
exactly the `session_id` of the token the provider returned for that
attempt (it is not regenerated per attempt — the per-attempt fresh value is
the `requestId`), so it changes across retries exactly when rotation hands
the request a token with a different persistent session id. -/
theorem session_id_follows_attempt_token
    (mapping : List (String × String)) (modelName : String)
    (pool : List ProxyToken) (i : Nat) (t : ProxyToken) (pid : String)
    (ht : roundRobinProvider pool i = some t)
    (hp : t.project_id = some pid) :
    anthropicAttemptBody mapping modelName pool i
      = some ⟨pid, i, anthropicDispatchModel mapping modelName, t.session_id⟩ := by
  simp [anthropicAttemptBody, ht, hp]

/-- Witness for the amended C9 on the two-account pool at attempt 1. -/
theorem session_id_follows_attempt_token_witness :
    anthropicAttemptBody [] "claude-sonnet-4-5" [tokA, tokB] 1
      = some ⟨"projectB", 1, anthropicDispatchModel [] "claude-sonnet-4-5", tokB.session_id⟩ :=
  session_id_follows_attempt_token [] "claude-sonnet-4-5" [tokA, tokB] 1 tokB "projectB" rfl rfl

/-! ### Peek-before-commit and the retry bound (C1, C3) -/

/-- C1: peek-before-commit on the Anthropic streaming endpoint.  (i) A 200
SSE response is committed only when the peeked first upstream read
succeeded, and the delivered stream is exactly the upstream
event list of that attempt — the peeked chunk re-prepended in front of the rest, every
event in order; in particular the client never receives a 200 whose event
stream is empty or starts with an error.  (ii) When the first read yields
an error that classifies as Retry and the attempt counter has reached the
bound, the handler — having written no SSE bytes — returns the HTTP 429
response (below the bound it loops to the next account, which is the
recursive branch of the model). -/
theorem anthropic_peek_before_commit
    (pool : List ProxyToken) (dispatch : Nat → DispatchResult) (a fuel : Nat) :
    (∀ evs, (anthropicStreamLoop pool dispatch a fuel).1 = some (HandlerResponse.success200 evs) →
      (∃ c rest, evs = Except.ok c :: rest) ∧ ∃ i, dispatch i = DispatchResult.streamOk evs)
    ∧ (∀ tok pid msg rest reason,
        roundRobinProvider pool a = some tok → tok.project_id = some pid →
        dispatch a = DispatchResult.streamOk (Except.error msg :: rest) →
        check_retry_error msg = RequestResultM.retryR reason →
        pool.length.max 1 ≤ a + 1 →
        (anthropicStreamLoop pool dispatch a (fuel + 1)).1
          = some (HandlerResponse.rate429 (maxRetriesMsg reason))) := by
  constructor
  · induction fuel generalizing a with
    | zero =>
      intro evs h
      simp [anthropicStreamLoop] at h
    | succ n ih =>
      intro evs h
      rw [anthropicStreamLoop] at h
      cases hprov : roundRobinProvider pool a with
      | none => simp [hprov] at h
      | some tok =>
        simp only [hprov] at h
        cases hproj : tok.project_id with
        | none => simp [hproj] at h
        | some pid =>
          simp only [hproj] at h
          cases hdisp : dispatch a with
          | httpErr msg =>
            simp only [hdisp] at h
            cases hcheck : check_retry_error msg with
            | retryR reason =>
              simp only [hcheck] at h
              by_cases hb : pool.length.max 1 ≤ a + 1
              · rw [if_pos hb] at h; simp at h
              · rw [if_neg hb] at h
                exact ih (a + 1) evs h
            | errorR s m => simp [hcheck] at h
          | streamOk events =>
            simp only [hdisp] at h
            cases events with
            | nil => exact ih (a + 1) evs h
            | cons e rest =>
              cases e with
              | error msg =>
                cases hcheck : check_retry_error msg with
                | retryR reason =>
                  simp only [hcheck] at h
                  by_cases hb : pool.length.max 1 ≤ a + 1
                  · rw [if_pos hb] at h; simp at h
                  · rw [if_neg hb] at h
                    exact ih (a + 1) evs h
                | errorR s m => simp [hcheck] at h
              | ok c =>
                simp only [Option.some.injEq, HandlerResponse.success200.injEq] at h
                subst h
                exact ⟨⟨c, rest, rfl⟩, a, hdisp⟩
  · intro tok pid msg rest reason hprov hproj hdisp hcheck hb
    rw [anthropicStreamLoop]
    simp only [hprov, hproj, hdisp, hcheck]
    rw [if_pos hb]

/-- C3 failing path: with a pool of one account whose upstream stream ends
before producing any event on every attempt, the empty-stream loop
branch (server.rs:653, `None => continue`) retries without the
`attempts >= max_retries` check: within 3 iterations it acquires 3 tokens
and issues 3 upstream calls — already more than `max(pool_size,1) = 1` —
and produces no response at all instead of the final 429. -/
theorem anthropic_empty_stream_retry_unbounded :
    anthropicStreamLoop [tokA] (fun _ => DispatchResult.streamOk []) 0 3 = (none, 3)
    ∧ Nat.max (List.length [tokA]) 1 = 1 := by
  exact ⟨rfl, rfl⟩

/-- Concrete dispatch oracle: the first read succeeds. -/
def dispatchFirstOk : Nat → DispatchResult :=
  fun _ => DispatchResult.streamOk [Except.ok "chunk1", Except.ok "chunk2"]

/-- Concrete dispatch oracle: the first read is a retryable 429 error. -/
def dispatchFirst429 : Nat → DispatchResult :=
  fun _ => DispatchResult.streamOk [Except.error "429"]

/-- Witness for C1: both conjuncts applied at concrete inputs — a pool of
one account whose first read succeeds (200 with the full event list
delivered) and one whose first read is a retryable error at the bound
(429, no 200 committed). -/
theorem anthropic_peek_before_commit_witness :
    ((∃ c rest, ([Except.ok "chunk1", Except.ok "chunk2"] : List (Except String String))
        = Except.ok c :: rest)
      ∧ ∃ i, dispatchFirstOk i
          = DispatchResult.streamOk [Except.ok "chunk1", Except.ok "chunk2"])
    ∧ (anthropicStreamLoop [tokA] dispatchFirst429 0 1).1
        = some (HandlerResponse.rate429 (maxRetriesMsg "429")) := by
  constructor
  · exact (anthropic_peek_before_commit [tokA] dispatchFirstOk 0 1).1
      [Except.ok "chunk1", Except.ok "chunk2"] rfl
  · exact (anthropic_peek_before_commit [tokA] dispatchFirst429 0 0).2
      tokA "projectA" "429" [] "429" rfl rfl rfl (by decide) (by decide)

/-! ### Stream chunk transformation policies (C6, C10) -/

/-- C6: the empty-chunk policy of the Anthropic stream transformation.
A parsed upstream chunk with no text, no `thought == true`, no
`thoughtSignature` and no `finishReason` produces no output item; a chunk
with none of that content but a STOP or MAX_TOKENS finish reason makes the
stream fail with the empty-finish error; a chunk with content produces
exactly one output chunk. -/
theorem anthropic_empty_chunk_policy (m : String) (j : Json) :
    ((chunkText j = "" ∧ chunkThought j = false ∧ chunkSig j = none ∧ geminiFinish j = none) →
      anthropicTransformChunk m j = [])
    ∧ ((chunkText j = "" ∧ chunkThought j = false ∧ chunkSig j = none ∧
        (geminiFinish j = some "STOP" ∨ geminiFinish j = some "MAX_TOKENS")) →
      (∃ msg, anthropicTransformChunk m j = [Except.error msg]))
    ∧ ((chunkText j ≠ "" ∨ chunkThought j = true ∨ (chunkSig j).isSome) →
      (∃ c, anthropicTransformChunk m j = [Except.ok c])) := by
  refine ⟨?_, ?_, ?_⟩
  · rintro ⟨h1, h2, h3, h4⟩
    simp [anthropicTransformChunk, anthropicMappedFinish, h1, h2, h3, h4]
  · rintro ⟨h1, h2, h3, h4⟩
    rcases h4 with h4 | h4
    · exact ⟨emptyFinishMsg "stop",
        by simp [anthropicTransformChunk, anthropicMappedFinish, h1, h2, h3, h4]⟩
    · exact ⟨emptyFinishMsg "length",
        by simp [anthropicTransformChunk, anthropicMappedFinish, h1, h2, h3, h4]⟩
  · intro hc
    refine ⟨⟨chunkRespId j, m, chunkText j, chunkThought j, chunkSig j, anthropicMappedFinish j⟩, ?_⟩
    rcases hc with hc | hc | hc
    · simp [anthropicTransformChunk, hc]
    · simp [anthropicTransformChunk, hc]
    · simp [anthropicTransformChunk, hc]

/-- The empty MAX_TOKENS scenario event of the spec:
`{candidates:[{finishReason:"MAX_TOKENS", content:{parts:[{}]}}]}`. -/
def emptyMaxTokensEvent : Json :=
  Json.obj [("candidates", Json.arr [Json.obj
    [("finishReason", Json.str "MAX_TOKENS"),
     ("content", Json.obj [("parts", Json.arr [Json.obj []])])]])]

/-- An event with text content and a STOP finish reason. -/
def stopTextEvent : Json :=
  Json.obj [("candidates", Json.arr [Json.obj
    [("finishReason", Json.str "STOP"),
     ("content", Json.obj [("parts", Json.arr [Json.obj [("text", Json.str "X")]])])]])]

/-- Witness for C6: the three policy arms evaluated at concrete events —
the all-empty event is dropped, the empty MAX_TOKENS event fails the
stream, the text event yields one chunk. -/
theorem anthropic_empty_chunk_policy_witness :
    anthropicTransformChunk "m" (Json.obj []) = []
    ∧ (∃ msg, anthropicTransformChunk "m" emptyMaxTokensEvent = [Except.error msg])
    ∧ (∃ c, anthropicTransformChunk "m" stopTextEvent = [Except.ok c]) := by
  refine ⟨?_, ?_, ?_⟩
  · exact (anthropic_empty_chunk_policy "m" (Json.obj [])).1 ⟨rfl, rfl, rfl, rfl⟩
  · exact (anthropic_empty_chunk_policy "m" emptyMaxTokensEvent).2.1
      ⟨rfl, rfl, rfl, Or.inr rfl⟩
  · exact (anthropic_empty_chunk_policy "m" stopTextEvent).2.2
      (Or.inl (by simp [stopTextEvent, chunkText, chunkPart0, getCandidates, Json.get,
        Json.lookupField, Json.getIdx, Json.asStr]))

/-- C10: no peek on the OpenAI streaming path — once the upstream call
returns 2xx the handler commits the 200 SSE response; every parsed
upstream event maps to exactly one `chat.completion.chunk` whose
`delta.content` is the first-part text of the event (default `""`); the empty
MAX_TOKENS first event becomes an ordinary chunk with empty content and
`finish_reason:"length"` delivered inside the 200 stream (whereas the
Anthropic-path transformer fails the stream on the same event, there is no
failure — hence no account rotation — here). -/
theorem openai_no_peek_forwards_all (m : String) (events : List Json) :
    handleStreamRequest m (Except.ok events)
      = OpenAIStreamOutcome.success200 (events.map (openaiTransformChunk m))
    ∧ (events.map (openaiTransformChunk m)).length = events.length
    ∧ (∀ j, (openaiTransformChunk m j).content = chunkText j)
    ∧ openaiTransformChunk m emptyMaxTokensEvent
      = ⟨"chatcmpl-stream", m, "", some "length"⟩ := by
  refine ⟨rfl, by simp, fun j => rfl, rfl⟩

/-! ### Idempotence of the inline-data post-processor (C8) -/

theorem lookupField_setField_self (l : List (String × Json)) (k : String) (v : Json)
    (h : (Json.lookupField l k).isSome) :
    Json.lookupField (Json.setField l k v) k = some v := by
  induction l with
  | nil => simp [Json.lookupField] at h
  | cons p rest ih =>
    obtain ⟨a, b⟩ := p
    by_cases hk : a = k
    · simp [Json.setField, Json.lookupField, hk]
    · simp [Json.lookupField, hk] at h
      simp [Json.setField, Json.lookupField, hk, ih h]

theorem lookupField_setField_ne (l : List (String × Json)) (k k' : String) (v : Json)
    (h : k' ≠ k) :
    Json.lookupField (Json.setField l k v) k' = Json.lookupField l k' := by
  induction l with
  | nil => rfl
  | cons p rest ih =>
    obtain ⟨a, b⟩ := p
    by_cases hk : a = k
    · subst hk
      have ha : ¬ a = k' := fun hh => h (hh ▸ rfl)
      simp [Json.setField, Json.lookupField, ha]
    · simp [Json.setField, Json.lookupField, hk, ih]

theorem setField_setField (l : List (String × Json)) (k : String) (v w : Json) :
    Json.setField (Json.setField l k v) k w = Json.setField l k w := by
  induction l with
  | nil => rfl
  | cons p rest ih =>
    obtain ⟨a, b⟩ := p
    by_cases hk : a = k
    · simp [Json.setField, hk]
    · simp [Json.setField, hk, ih]

theorem lookupField_append_of_none (l m : List (String × Json)) (k : String)
    (h : Json.lookupField l k = none) :
    Json.lookupField (l ++ m) k = Json.lookupField m k := by
  induction l with
  | nil => rfl
  | cons p rest ih =>
    obtain ⟨a, b⟩ := p
    by_cases hk : a = k
    · simp [Json.lookupField, hk] at h
    · simp [Json.lookupField, hk] at h ⊢
      exact ih h

/-- After the rewrite, no part carries a top-level `inlineData` key. -/
theorem replacePart_no_inline (p : Json) : (replacePart p).get "inlineData" = none := by
  cases hp : p.get "inlineData" with
  | none => simp [replacePart, hp]
  | some inline =>
    simp only [replacePart, hp]
    rfl

theorem replacePart_of_no_inline (q : Json) (h : q.get "inlineData" = none) :
    replacePart q = q := by
  simp [replacePart, h]

theorem replacePart_idem (p : Json) : replacePart (replacePart p) = replacePart p :=
  replacePart_of_no_inline _ (replacePart_no_inline p)

theorem map_replacePart_idem (l : List Json) :
    (l.map replacePart).map replacePart = l.map replacePart := by
  induction l with
  | nil => rfl
  | cons a as ih => simp [replacePart_idem, ih]

theorem map_replacePart_comp (l : List Json) :
    l.map (replacePart ∘ replacePart) = l.map replacePart := by
  induction l with
  | nil => rfl
  | cons a as ih => simp [Function.comp, replacePart_idem, ih]

theorem processCandidate_idem (c c' : Json) (h : processCandidate c = some c') :
    processCandidate c' = some c' := by
  cases c with
  | obj fields =>
    cases hcont : Json.lookupField fields "content" with
    | none =>
      simp [processCandidate, hcont] at h
      subst h
      have hlk : Json.lookupField (fields ++ [("content", Json.null)]) "content"
          = some Json.null := by
        rw [lookupField_append_of_none _ _ _ hcont]
        rfl
      simp [processCandidate, hlk]
    | some v =>
      cases v with
      | obj cf =>
        cases hparts : Json.lookupField cf "parts" with
        | none => simp [processCandidate, hcont, hparts] at h
        | some pv =>
          cases pv with
          | arr parts =>
            simp [processCandidate, hcont, hparts] at h
            subst h
            have hs1 : (Json.lookupField fields "content").isSome := by simp [hcont]
            have hs2 : (Json.lookupField cf "parts").isSome := by simp [hparts]
            simp [processCandidate,
              lookupField_setField_self _ _ _ hs1,
              lookupField_setField_self _ _ _ hs2,
              setField_setField, map_replacePart_idem, map_replacePart_comp]
          | null =>
            simp [processCandidate, hcont, hparts] at h
            subst h
            simp [processCandidate, hcont, hparts]
          | bool b =>
            simp [processCandidate, hcont, hparts] at h
            subst h
            simp [processCandidate, hcont, hparts]
          | num n =>
            simp [processCandidate, hcont, hparts] at h
            subst h
            simp [processCandidate, hcont, hparts]
          | str s =>
            simp [processCandidate, hcont, hparts] at h
            subst h
            simp [processCandidate, hcont, hparts]
          | obj po =>
            simp [processCandidate, hcont, hparts] at h
            subst h
            simp [processCandidate, hcont, hparts]
      | null =>
        simp [processCandidate, hcont] at h
        subst h
        simp [processCandidate, hcont]
      | bool b =>
        simp [processCandidate, hcont] at h
        subst h
        simp [processCandidate, hcont]
      | num n =>
        simp [processCandidate, hcont] at h
        subst h
        simp [processCandidate, hcont]
      | str s =>
        simp [processCandidate, hcont] at h
        subst h
        simp [processCandidate, hcont]
      | arr es =>
        simp [processCandidate, hcont] at h
        subst h
        simp [processCandidate, hcont]
  | null =>
    simp [processCandidate] at h
    subst h
    rfl
  | bool b => simp [processCandidate] at h
  | num n => simp [processCandidate] at h
  | str s => simp [processCandidate] at h
  | arr es => simp [processCandidate] at h

theorem mapOpt_processCandidate_idem (l l' : List Json)
    (h : mapOpt processCandidate l = some l') :
    mapOpt processCandidate l' = some l' := by
  induction l generalizing l' with
  | nil =>
    simp [mapOpt] at h
    subst h
    rfl
  | cons a as ih =>
    cases ha : processCandidate a with
    | none => simp [mapOpt, ha] at h
    | some b =>
      simp only [mapOpt, ha] at h
      cases has : mapOpt processCandidate as with
      | none => rw [has] at h; simp at h
      | some bs =>
        rw [has] at h
        simp at h
        subst h
        simp [mapOpt, processCandidate_idem a b ha, ih bs has]

theorem processCandidatesValue_idem (v v' : Json)
    (h : processCandidatesValue v = some v') :
    processCandidatesValue v' = some v' := by
  cases v with
  | arr cs =>
    simp only [processCandidatesValue] at h
    cases hm : mapOpt processCandidate cs with
    | none => rw [hm] at h; simp at h
    | some cs' =>
      rw [hm] at h
      simp at h
      subst h
      simp [processCandidatesValue, mapOpt_processCandidate_idem cs cs' hm]
  | null =>
    simp [processCandidatesValue] at h
    subst h
    rfl
  | bool b =>
    simp [processCandidatesValue] at h
    subst h
    rfl
  | num n =>
    simp [processCandidatesValue] at h
    subst h
    rfl
  | str s =>
    simp [processCandidatesValue] at h
    subst h
    rfl
  | obj fs =>
    simp [processCandidatesValue] at h
    subst h
    rfl

theorem process_inline_data_idem_aux (x y : Json)
    (h : process_inline_data x = some y) :
    process_inline_data y = some y := by
  cases x with
  | obj fields =>
    cases hc : Json.lookupField fields "candidates" with
    | some v =>
      simp only [process_inline_data, hc] at h
      cases hv : processCandidatesValue v with
      | none => rw [hv] at h; simp at h
      | some v2 =>
        rw [hv] at h
        simp at h
        subst h
        have h1 : Json.lookupField (Json.setField fields "candidates" v2) "candidates"
            = some v2 := lookupField_setField_self _ _ _ (by simp [hc])
        simp [process_inline_data, h1,
          processCandidatesValue_idem v v2 hv, setField_setField]
    | none =>
      cases hr : Json.lookupField fields "response" with
      | some r =>
        cases r with
        | obj rf =>
          cases hrc : Json.lookupField rf "candidates" with
          | some v =>
            simp only [process_inline_data, hc, hr, hrc] at h
            cases hv : processCandidatesValue v with
            | none => rw [hv] at h; simp at h
            | some v2 =>
              rw [hv] at h
              simp at h
              subst h
              have hcand : Json.lookupField
                  (Json.setField fields "response" (Json.obj (Json.setField rf "candidates" v2)))
                  "candidates" = none := by
                rw [lookupField_setField_ne _ _ _ _ (by decide)]
                exact hc
              have hresp : Json.lookupField
                  (Json.setField fields "response" (Json.obj (Json.setField rf "candidates" v2)))
                  "response" = some (Json.obj (Json.setField rf "candidates" v2)) :=
                lookupField_setField_self _ _ _ (by simp [hr])
              have hv2 : Json.lookupField (Json.setField rf "candidates" v2) "candidates"
                  = some v2 := lookupField_setField_self _ _ _ (by simp [hrc])
              simp [process_inline_data, hcand, hresp, hv2,
                processCandidatesValue_idem v v2 hv, setField_setField]
          | none =>
            simp [process_inline_data, hc, hr, hrc] at h
            subst h
            simp [process_inline_data, hc, hr, hrc]
        | null =>
          simp [process_inline_data, hc, hr] at h
          subst h
          simp [process_inline_data, hc, hr]
        | bool b =>
          simp [process_inline_data, hc, hr] at h
          subst h
          simp [process_inline_data, hc, hr]
        | num n =>
          simp [process_inline_data, hc, hr] at h
          subst h
          simp [process_inline_data, hc, hr]
        | str s =>
          simp [process_inline_data, hc, hr] at h
          subst h
          simp [process_inline_data, hc, hr]
        | arr es =>
          simp [process_inline_data, hc, hr] at h
          subst h
          simp [process_inline_data, hc, hr]
      | none =>
        simp [process_inline_data, hc, hr] at h
        subst h
        simp [process_inline_data, hc, hr]
  | null =>
    simp [process_inline_data] at h
    subst h
    rfl
  | bool b =>
    simp [process_inline_data] at h
    subst h
    rfl
  | num n =>
    simp [process_inline_data] at h
    subst h
    rfl
  | str s =>
    simp [process_inline_data] at h
    subst h
    rfl
  | arr es =>
    simp [process_inline_data] at h
    subst h
    rfl

/-- C8: the inline-data post-processor is idempotent — for every JSON
value, applying it twice yields the same result as applying it once
(panics, modelled as `none`, propagate identically; on every input where
one application succeeds, the second application changes nothing, since
the first left no part with `inlineData`). -/
theorem process_inline_data_idempotent (x : Json) :
    (process_inline_data x).bind process_inline_data = process_inline_data x := by
  cases hx : process_inline_data x with
  | none => rfl
  | some y => simp [process_inline_data_idem_aux x y hx]

end AntigravityProxy
